import Mathlib

/-!
Verification development for the ClearTrack portfolio-tracking backend
(`backend/main.py`). The Python source is shallowly embedded: float
arithmetic is modelled over `ℚ`, `datetime` instants as integers (seconds),
the relational store as explicit lists of rows, and the external market-data
provider (`yfinance`) as an abstract function from tickers to results.
-/

namespace ClearTrack

/-- Instants (`datetime.utcnow()` values) are modelled as integers, read as
seconds since the epoch. -/
abbrev DateTime := Int

/-- Row of the `holdings` table (model `Holding` in `main.py`). The synthetic
autoincrement `id` is carried explicitly; it is assigned by the caller of
`create_holding` in this embedding. -/
structure Holding where
  id : Nat
  ticker : String
  shares : ℚ
  purchase_price : ℚ
  created_at : DateTime
deriving DecidableEq, Repr

/-- Row of the `price_snapshots` table (model `PriceSnapshot` in `main.py`).
`holding_id` is an `Option` because the column is a nullable foreign key:
SQLAlchemy's default relationship cascade ("save-update, merge", no
"delete") disassociates child rows when their parent `Holding` is deleted,
setting `holding_id` to NULL rather than deleting the row. The autoincrement
primary key is omitted; no claim mentions it. -/
structure PriceSnapshot where
  holding_id : Option Nat
  price : ℚ
  date : DateTime
deriving DecidableEq, Repr

/-- Row of the `portfolio_history` table (model `PortfolioHistory` in
`main.py`); the autoincrement primary key is omitted. -/
structure PortfolioHistory where
  date : DateTime
  total_value : ℚ
  total_invested : ℚ
  profit_loss : ℚ
deriving DecidableEq, Repr

/-- The persistent database state: the three tables. -/
structure DB where
  holdings : List Holding
  snapshots : List PriceSnapshot
  history : List PortfolioHistory
deriving DecidableEq, Repr

/-- Outcome of the external market-data call `yf.Ticker(t).history(period="1d")`:
either a (possibly empty) frame of closing prices, or a raised exception. -/
inductive ProviderResult where
  | ok (closes : List ℚ)
  | err
deriving DecidableEq, Repr

/-- The external provider, abstracted as a function from ticker symbols to
call outcomes. -/
abbrev Provider := String → ProviderResult

/-- Embeds `get_current_price` (main.py lines 110-119): returns the last
closing price when the provider yields a non-empty frame, and `0.0` when the
frame is empty or the call raises. It is a total function: the Python
`try/except` guarantees no exception escapes to the caller. -/
def get_current_price (provider : Provider) (ticker : String) : ℚ :=
  match provider ticker with
  | .ok closes =>
    match closes.getLast? with
    | some c => c
    | none => 0
  | .err => 0

/-- Embeds the `for holding in holdings` loop of `update_price_snapshots`
(main.py lines 129-142): threads the `portfolio_value` and
`portfolio_invested` accumulators and collects the `PriceSnapshot` rows
staged by `db.add`, in loop order. -/
def snapshotLoop (provider : Provider) (now : DateTime) :
    List Holding → ℚ → ℚ → List PriceSnapshot × ℚ × ℚ
  | [], portfolio_value, portfolio_invested =>
      ([], portfolio_value, portfolio_invested)
  | holding :: rest, portfolio_value, portfolio_invested =>
      let current_price := get_current_price provider holding.ticker
      let r := snapshotLoop provider now rest
        (portfolio_value + current_price * holding.shares)
        (portfolio_invested + holding.purchase_price * holding.shares)
      (⟨some holding.id, current_price, now⟩ :: r.1, r.2)

/-- Embeds a successful run of `update_price_snapshots` (main.py lines
121-157): every staged row is committed at the single `db.commit()` on line
152, appending one snapshot per holding and one history row. -/
def update_price_snapshots (provider : Provider) (now : DateTime) (db : DB) : DB :=
  let r := snapshotLoop provider now db.holdings 0 0
  { holdings := db.holdings
    snapshots := db.snapshots ++ r.1
    history := db.history ++ [⟨now, r.2.1, r.2.2, r.2.1 - r.2.2⟩] }

/-- The helper `fun h => ⟨some h.id, price, now⟩` row the job stages for one
holding. -/
def mkSnapshot (provider : Provider) (now : DateTime) (holding : Holding) :
    PriceSnapshot :=
  ⟨some holding.id, get_current_price provider holding.ticker, now⟩

theorem snapshotLoop_eq (provider : Provider) (now : DateTime) :
    ∀ (hs : List Holding) (pv pi : ℚ),
      snapshotLoop provider now hs pv pi =
        (hs.map (mkSnapshot provider now),
         pv + (hs.map (fun h => get_current_price provider h.ticker * h.shares)).sum,
         pi + (hs.map (fun h => h.purchase_price * h.shares)).sum)
  | [], pv, pi => by simp [snapshotLoop]
  | h :: hs, pv, pi => by
      simp only [snapshotLoop, snapshotLoop_eq provider now hs, List.map_cons,
        List.sum_cons, mkSnapshot, Prod.mk.injEq, true_and]
      exact ⟨by ring, by ring⟩

theorem update_snapshots_eq (provider : Provider) (now : DateTime) (db : DB) :
    (update_price_snapshots provider now db).snapshots =
      db.snapshots ++ db.holdings.map (mkSnapshot provider now) := by
  simp [update_price_snapshots, snapshotLoop_eq]

theorem update_history_eq (provider : Provider) (now : DateTime) (db : DB) :
    (update_price_snapshots provider now db).history =
      db.history ++
        [⟨now,
          (db.holdings.map (fun h => get_current_price provider h.ticker * h.shares)).sum,
          (db.holdings.map (fun h => h.purchase_price * h.shares)).sum,
          (db.holdings.map (fun h => get_current_price provider h.ticker * h.shares)).sum -
            (db.holdings.map (fun h => h.purchase_price * h.shares)).sum⟩] := by
  simp [update_price_snapshots, snapshotLoop_eq]

/-- C1. A run of the snapshot job appends exactly one `PriceSnapshot` row per
holding, carrying the price fetched for that holding's ticker, and exactly
one `PortfolioHistory` row whose `total_value` is the sum of
`price * shares`, whose `total_invested` is the sum of
`purchase_price * shares`, and whose `profit_loss` is their difference; for
the empty holdings list it appends one all-zero history row and no snapshot
rows. -/
theorem snapshot_job_rows (provider : Provider) (now : DateTime) (db : DB) :
    (update_price_snapshots provider now db).snapshots =
      db.snapshots ++ db.holdings.map (mkSnapshot provider now) ∧
    (update_price_snapshots provider now db).history =
      db.history ++
        [⟨now,
          (db.holdings.map (fun h => get_current_price provider h.ticker * h.shares)).sum,
          (db.holdings.map (fun h => h.purchase_price * h.shares)).sum,
          (db.holdings.map (fun h => get_current_price provider h.ticker * h.shares)).sum -
            (db.holdings.map (fun h => h.purchase_price * h.shares)).sum⟩] ∧
    update_price_snapshots provider now ⟨[], [], []⟩ =
      ⟨[], [], [⟨now, 0, 0, 0⟩]⟩ :=
  ⟨update_snapshots_eq provider now db, update_history_eq provider now db,
   by simp [update_price_snapshots, snapshotLoop]⟩

/-! ### Session semantics of the snapshot job

`update_price_snapshots` opens a session from `SessionLocal`, which is built
with `autocommit=False, autoflush=False`: each `db.add` only stages a row in
the session, and nothing reaches the database until the single `db.commit()`
on line 152. On an exception the `except` branch only prints, and the
`finally: db.close()` releases the session, rolling back the uncommitted
transaction. The model below makes the staged/committed distinction explicit
and lets an exception interrupt the run after any prefix of its actions. -/

/-- An open session: the committed database plus the rows staged by `db.add`
that are not yet committed. -/
structure SessionState where
  committed : DB
  pendingSnapshots : List PriceSnapshot
  pendingHistory : List PortfolioHistory
deriving DecidableEq, Repr

/-- One effectful step of the job body: staging a snapshot (`db.add(snapshot)`),
staging the history row (`db.add(history)`), or `db.commit()`. -/
inductive JobAction where
  | addSnapshot (s : PriceSnapshot)
  | addHistory (h : PortfolioHistory)
  | commit
deriving DecidableEq, Repr

/-- Session semantics of one action: `add` stages, `commit` makes every
staged row durable at once. -/
def applyAction (st : SessionState) : JobAction → SessionState
  | .addSnapshot s => { st with pendingSnapshots := st.pendingSnapshots ++ [s] }
  | .addHistory h => { st with pendingHistory := st.pendingHistory ++ [h] }
  | .commit =>
      { committed :=
          { holdings := st.committed.holdings
            snapshots := st.committed.snapshots ++ st.pendingSnapshots
            history := st.committed.history ++ st.pendingHistory }
        pendingSnapshots := []
        pendingHistory := [] }

/-- The sequence of effectful actions a run of `update_price_snapshots`
performs for the given holdings: one `addSnapshot` per loop iteration, then
`addHistory`, then the single `commit`. -/
def jobActions (provider : Provider) (now : DateTime) (holdings : List Holding) :
    List JobAction :=
  let r := snapshotLoop provider now holdings 0 0
  r.1.map JobAction.addSnapshot ++
    [.addHistory ⟨now, r.2.1, r.2.2, r.2.1 - r.2.2⟩, .commit]

/-- A run of `update_price_snapshots` in which an exception is raised just
before action index `failAt` (so exactly `failAt` actions executed), or no
exception at all when `failAt = none`. The exception is caught and only
logged; `db.close()` then rolls back whatever is still uncommitted, so the
resulting persistent state is the session's committed database. -/
def run_update_price_snapshots (provider : Provider) (now : DateTime) (db : DB)
    (failAt : Option Nat) : DB :=
  let actions := jobActions provider now db.holdings
  let executed :=
    match failAt with
    | some k => actions.take k
    | none => actions
  (executed.foldl applyAction ⟨db, [], []⟩).committed

theorem foldl_applyAction_no_commit :
    ∀ (acts : List JobAction) (st : SessionState),
      (∀ a ∈ acts, a ≠ JobAction.commit) →
      (acts.foldl applyAction st).committed = st.committed
  | [], st, _ => rfl
  | a :: acts, st, h => by
      have ha := h a (List.mem_cons_self a acts)
      have hrest := foldl_applyAction_no_commit acts (applyAction st a)
        (fun b hb => h b (List.mem_cons_of_mem a hb))
      rw [List.foldl_cons, hrest]
      cases a with
      | addSnapshot s => rfl
      | addHistory hh => rfl
      | commit => exact absurd rfl ha

theorem foldl_applyAction_addSnapshots :
    ∀ (xs : List PriceSnapshot) (st : SessionState),
      (xs.map JobAction.addSnapshot).foldl applyAction st =
        { st with pendingSnapshots := st.pendingSnapshots ++ xs }
  | [], st => by simp
  | x :: xs, st => by
      simp only [List.map_cons, List.foldl_cons,
        foldl_applyAction_addSnapshots xs, applyAction]
      simp [List.append_assoc]

/-- A run with no exception commits exactly the rows of
`update_price_snapshots`. -/
theorem run_none_eq_update (provider : Provider) (now : DateTime) (db : DB) :
    run_update_price_snapshots provider now db none =
      update_price_snapshots provider now db := by
  simp only [run_update_price_snapshots, jobActions, update_price_snapshots]
  rw [List.foldl_append, foldl_applyAction_addSnapshots]
  rfl

/-- Counterexample data for C2: a database with two holdings and a provider
quoting every ticker at 5. -/
def dbC2 : DB :=
  ⟨[⟨1, "AAA", 1, 1, 0⟩, ⟨2, "BBB", 1, 1, 0⟩], [], []⟩

def providerC2 : Provider := fun _ => .ok [5]

/-- C2, counterexample. In the run over `dbC2` interrupted right after its
first action — which is exactly the `db.add` of holding 1's snapshot — the
persistent database is unchanged: no `PriceSnapshot` row is persisted, so a
mid-loop crash does not leave snapshot rows for some holdings, contrary to
the claim that writes made before the exception are not rolled back. -/
theorem snapshot_job_midloop_counterexample :
    (jobActions providerC2 0 dbC2.holdings).take 1 =
      [JobAction.addSnapshot ⟨some 1, 5, 0⟩] ∧
    run_update_price_snapshots providerC2 0 dbC2 (some 1) = dbC2 := by
  constructor <;> rfl

/-- C2, amended. An exception during the load/loop/history steps (that is,
before the single final `commit`, which is action index
`holdings.length + 1`) aborts the whole job and leaves the persistent
database exactly as it was: nothing from that run is durable, because every
`db.add` only staged rows and `db.close()` rolls the open transaction back.
A run with no exception commits the full batch. -/
theorem snapshot_job_atomic (provider : Provider) (now : DateTime) (db : DB)
    (k : Nat) (hk : k ≤ db.holdings.length + 1) :
    run_update_price_snapshots provider now db (some k) = db ∧
    run_update_price_snapshots provider now db none =
      update_price_snapshots provider now db := by
  refine ⟨?_, run_none_eq_update provider now db⟩
  simp only [run_update_price_snapshots, jobActions]
  have hlen : ((snapshotLoop provider now db.holdings 0 0).1.map
      JobAction.addSnapshot ++
      [JobAction.addHistory ⟨now, (snapshotLoop provider now db.holdings 0 0).2.1,
        (snapshotLoop provider now db.holdings 0 0).2.2,
        (snapshotLoop provider now db.holdings 0 0).2.1 -
          (snapshotLoop provider now db.holdings 0 0).2.2⟩]).length =
      db.holdings.length + 1 := by
    simp [snapshotLoop_eq]
  rw [show ((snapshotLoop provider now db.holdings 0 0).1.map
        JobAction.addSnapshot ++
        [JobAction.addHistory ⟨now, (snapshotLoop provider now db.holdings 0 0).2.1,
          (snapshotLoop provider now db.holdings 0 0).2.2,
          (snapshotLoop provider now db.holdings 0 0).2.1 -
            (snapshotLoop provider now db.holdings 0 0).2.2⟩, JobAction.commit]) =
      ((snapshotLoop provider now db.holdings 0 0).1.map
        JobAction.addSnapshot ++
        [JobAction.addHistory ⟨now, (snapshotLoop provider now db.holdings 0 0).2.1,
          (snapshotLoop provider now db.holdings 0 0).2.2,
          (snapshotLoop provider now db.holdings 0 0).2.1 -
            (snapshotLoop provider now db.holdings 0 0).2.2⟩]) ++
        [JobAction.commit] by simp]
  rw [List.take_append_of_le_length (hlen ▸ hk)]
  apply foldl_applyAction_no_commit
  intro a ha
  have ha' := List.mem_of_mem_take ha
  rcases List.mem_append.mp ha' with hmap | hone
  · rcases List.mem_map.mp hmap with ⟨s, _, rfl⟩
    exact fun h => JobAction.noConfusion h
  · rcases List.mem_singleton.mp hone with rfl
    exact fun h => JobAction.noConfusion h

/-- C2 amended, witness: over `dbC2` (two holdings), a run interrupted after
two of its four actions — both still before the final commit — leaves the
database untouched. -/
theorem snapshot_job_atomic_witness :
    run_update_price_snapshots providerC2 0 dbC2 (some 2) = dbC2 ∧
    run_update_price_snapshots providerC2 0 dbC2 none =
      update_price_snapshots providerC2 0 dbC2 :=
  snapshot_job_atomic providerC2 0 dbC2 2 (by decide)

/-! ### Portfolio summary -/

/-- Response model `PortfolioSummary` of `main.py`. -/
structure PortfolioSummary where
  total_invested : ℚ
  current_value : ℚ
  holdings_count : Nat
  profit_loss : ℚ
  profit_loss_percent : ℚ
deriving DecidableEq, Repr

/-- Embeds `get_portfolio_summary` (main.py lines 222-243): accumulates
`total_invested` and `current_value` over all holdings, then derives
`profit_loss` and the guarded `profit_loss_percent`. -/
def get_portfolio_summary (provider : Provider) (db : DB) : PortfolioSummary :=
  let r := db.holdings.foldl
    (fun (acc : ℚ × ℚ) holding =>
      (acc.1 + holding.purchase_price * holding.shares,
       acc.2 + get_current_price provider holding.ticker * holding.shares))
    (0, 0)
  let total_invested := r.1
  let current_value := r.2
  let profit_loss := current_value - total_invested
  let profit_loss_percent :=
    if 0 < total_invested then profit_loss / total_invested * 100 else 0
  ⟨total_invested, current_value, db.holdings.length, profit_loss,
    profit_loss_percent⟩

theorem summary_foldl_eq (provider : Provider) :
    ∀ (hs : List Holding) (acc : ℚ × ℚ),
      hs.foldl
        (fun (acc : ℚ × ℚ) holding =>
          (acc.1 + holding.purchase_price * holding.shares,
           acc.2 + get_current_price provider holding.ticker * holding.shares))
        acc =
      (acc.1 + (hs.map (fun h => h.purchase_price * h.shares)).sum,
       acc.2 + (hs.map (fun h => get_current_price provider h.ticker * h.shares)).sum)
  | [], acc => by simp
  | h :: hs, acc => by
      simp only [List.foldl_cons, summary_foldl_eq provider hs, List.map_cons,
        List.sum_cons, Prod.mk.injEq]
      exact ⟨by ring, by ring⟩

/-- Example data for C3: one holding of 10 shares bought at 5, quoted at 8. -/
def dbC3 : DB := ⟨[⟨1, "AAA", 10, 5, 0⟩], [], []⟩

def providerC3 : Provider := fun _ => .ok [8]

/-- C3. The portfolio summary's `total_invested` is the sum over holdings of
`purchase_price * shares`, its `current_value` the sum of
`current_price * shares`, its `holdings_count` the number of holdings, and
its `profit_loss` their difference; on the one-holding example (10 shares,
bought at 5, quoted at 8) it yields totals 50, 80, profit 30 and 60 percent. -/
theorem portfolio_summary_totals (provider : Provider) (db : DB) :
    (get_portfolio_summary provider db).total_invested =
      (db.holdings.map (fun h => h.purchase_price * h.shares)).sum ∧
    (get_portfolio_summary provider db).current_value =
      (db.holdings.map (fun h => get_current_price provider h.ticker * h.shares)).sum ∧
    (get_portfolio_summary provider db).holdings_count = db.holdings.length ∧
    (get_portfolio_summary provider db).profit_loss =
      (get_portfolio_summary provider db).current_value -
        (get_portfolio_summary provider db).total_invested ∧
    get_portfolio_summary providerC3 dbC3 = ⟨50, 80, 1, 30, 60⟩ := by
  refine ⟨?_, ?_, rfl, ?_,
    by norm_num [get_portfolio_summary, dbC3, providerC3, get_current_price,
      List.getLast?, PortfolioSummary.mk.injEq]⟩ <;>
    simp [get_portfolio_summary, summary_foldl_eq]

/-- C4. `profit_loss_percent` equals `profit_loss / total_invested * 100`
whenever `total_invested > 0`, and equals exactly `0` when
`total_invested = 0`, whatever `current_value` is; the division is reached
only under the positivity guard. -/
theorem profit_loss_percent_guard (provider : Provider) (db : DB) :
    (0 < (get_portfolio_summary provider db).total_invested →
      (get_portfolio_summary provider db).profit_loss_percent =
        (get_portfolio_summary provider db).profit_loss /
          (get_portfolio_summary provider db).total_invested * 100) ∧
    ((get_portfolio_summary provider db).total_invested = 0 →
      (get_portfolio_summary provider db).profit_loss_percent = 0) := by
  constructor
  · intro h
    simp only [get_portfolio_summary] at h ⊢
    rw [if_pos h]
  · intro h
    simp only [get_portfolio_summary] at h ⊢
    rw [h]
    simp

/-- C4, witness: both guard branches at concrete inputs — the C3 example has
positive cost basis and percent 60; the empty portfolio has zero cost basis
and percent 0. -/
theorem profit_loss_percent_guard_witness :
    (get_portfolio_summary providerC3 dbC3).profit_loss_percent =
      (get_portfolio_summary providerC3 dbC3).profit_loss /
        (get_portfolio_summary providerC3 dbC3).total_invested * 100 ∧
    (get_portfolio_summary providerC3 ⟨[], [], []⟩).profit_loss_percent = 0 :=
  ⟨(profit_loss_percent_guard providerC3 dbC3).1
     (by norm_num [get_portfolio_summary, dbC3, providerC3, get_current_price,
       List.getLast?]),
   (profit_loss_percent_guard providerC3 ⟨[], [], []⟩).2
     (by simp [get_portfolio_summary])⟩

/-! ### Price lookup -/

/-- C5. `get_current_price` is a total function of the provider's outcome —
the `try/except` in the source means no exception reaches the caller — and
it returns the latest closing price exactly when the provider yields a
non-empty frame, and `0.0` when the frame is empty or the call raises. -/
theorem price_lookup_cases (provider : Provider) (ticker : String) :
    (∀ (closes : List ℚ) (c : ℚ), provider ticker = .ok closes →
      closes.getLast? = some c → get_current_price provider ticker = c) ∧
    (∀ closes : List ℚ, provider ticker = .ok closes →
      closes.getLast? = none → get_current_price provider ticker = 0) ∧
    (provider ticker = .err → get_current_price provider ticker = 0) := by
  refine ⟨?_, ?_, ?_⟩
  · intro closes c hok hlast
    simp [get_current_price, hok, hlast]
  · intro closes hok hlast
    simp [get_current_price, hok, hlast]
  · intro herr
    simp [get_current_price, herr]

/-- Provider for the C5 witness: "AAA" has two closes ending at 8, "BBB" an
empty frame, anything else raises. -/
def providerC5 : Provider := fun t =>
  if t = "AAA" then .ok [3, 8] else if t = "BBB" then .ok [] else .err

/-- C5, witness: the three cases of `price_lookup_cases` at concrete
tickers. -/
theorem price_lookup_cases_witness :
    get_current_price providerC5 "AAA" = 8 ∧
    get_current_price providerC5 "BBB" = 0 ∧
    get_current_price providerC5 "ZZZ" = 0 :=
  ⟨(price_lookup_cases providerC5 "AAA").1 [3, 8] 8 (by decide) (by decide),
   (price_lookup_cases providerC5 "BBB").2.1 [] (by decide) (by decide),
   (price_lookup_cases providerC5 "ZZZ").2.2 (by decide)⟩

/-! ### Holdings CRUD -/

/-- Request model `HoldingCreate` of `main.py`. -/
structure HoldingCreate where
  ticker : String
  shares : ℚ
  purchase_price : ℚ
deriving DecidableEq, Repr

/-- Response model `HoldingResponse` of `main.py`. -/
structure HoldingResponse where
  id : Nat
  ticker : String
  shares : ℚ
  purchase_price : ℚ
  current_price : ℚ
  current_value : ℚ
  total_cost : ℚ
  created_at : DateTime
deriving DecidableEq, Repr

/-- An `HTTPException` raised by a route: status code and detail string. -/
structure ApiError where
  status : Nat
  detail : String
deriving DecidableEq, Repr

/-- Embeds `get_holdings` (main.py lines 169-187): every stored holding,
enriched with the live price and the derived value/cost figures. -/
def get_holdings (provider : Provider) (db : DB) : List HoldingResponse :=
  db.holdings.map fun holding =>
    let current_price := get_current_price provider holding.ticker
    ⟨holding.id, holding.ticker, holding.shares, holding.purchase_price,
     current_price, current_price * holding.shares,
     holding.purchase_price * holding.shares, holding.created_at⟩

/-- Embeds `create_holding` (main.py lines 189-210). The route rejects the
request with a 400 before touching the database when the price lookup
returns `0`; otherwise it inserts the row (`newId` stands for the
autoincrement key the insert assigns, `now` for the `created_at` default)
and echoes it enriched with the looked-up price. The first component is the
database after the call. -/
def create_holding (provider : Provider) (req : HoldingCreate) (newId : Nat)
    (now : DateTime) (db : DB) : DB × Except ApiError HoldingResponse :=
  let current_price := get_current_price provider req.ticker
  if current_price = 0 then
    (db, .error ⟨400, "Invalid ticker symbol"⟩)
  else
    let db_holding : Holding :=
      ⟨newId, req.ticker, req.shares, req.purchase_price, now⟩
    ({ db with holdings := db.holdings ++ [db_holding] },
     .ok ⟨newId, req.ticker, req.shares, req.purchase_price, current_price,
       current_price * req.shares, req.purchase_price * req.shares, now⟩)

/-- Embeds `delete_holding` (main.py lines 212-220). The query's `.first()`
finds the first row with the given id; absence yields a 404 with the
database untouched. Deletion removes that row; because the
`Holding.snapshots` relationship (line 35) declares no delete cascade,
SQLAlchemy's default behaviour on flush disassociates the holding's
`PriceSnapshot` children, setting their `holding_id` foreign key to NULL
instead of deleting the rows. The first component is the database after the
call. -/
def delete_holding (holding_id : Nat) (db : DB) : DB × Except ApiError String :=
  match db.holdings.find? (fun h => h.id == holding_id) with
  | none => (db, .error ⟨404, "Holding not found"⟩)
  | some _ =>
      ({ holdings := db.holdings.eraseP (fun h => h.id == holding_id)
         snapshots := db.snapshots.map fun s =>
           if s.holding_id == some holding_id then { s with holding_id := none }
           else s
         history := db.history },
       .ok "Holding deleted")

/-- Provider and data for the C6/C7 witnesses: "AAA" is quoted at 8,
everything else fails the lookup. -/
def providerC6 : Provider := fun t => if t = "AAA" then .ok [8] else .err

/-- C6. Creating a holding fails with the 400 invalid-ticker error and
persists nothing exactly when the price lookup for its ticker returns `0`;
otherwise the holding is appended to the stored holdings and the response
carries `current_value = current_price * shares` and
`total_cost = purchase_price * shares`. -/
theorem create_holding_validates_ticker (provider : Provider)
    (req : HoldingCreate) (newId : Nat) (now : DateTime) (db : DB) :
    (get_current_price provider req.ticker = 0 →
      create_holding provider req newId now db =
        (db, .error ⟨400, "Invalid ticker symbol"⟩)) ∧
    (get_current_price provider req.ticker ≠ 0 →
      (create_holding provider req newId now db).1.holdings =
        db.holdings ++ [⟨newId, req.ticker, req.shares, req.purchase_price, now⟩] ∧
      (create_holding provider req newId now db).2 =
        .ok ⟨newId, req.ticker, req.shares, req.purchase_price,
          get_current_price provider req.ticker,
          get_current_price provider req.ticker * req.shares,
          req.purchase_price * req.shares, now⟩) := by
  constructor
  · intro h
    simp [create_holding, h]
  · intro h
    simp [create_holding, h]

/-- C6, witness: with provider `providerC6`, creating "ZZZ" (lookup 0) is
rejected with a 400 leaving the database empty, while creating "AAA" at 10
shares bought at 5 is persisted with current value 80 and total cost 50. -/
theorem create_holding_validates_ticker_witness :
    create_holding providerC6 ⟨"ZZZ", 10, 5⟩ 1 0 ⟨[], [], []⟩ =
      (⟨[], [], []⟩, .error ⟨400, "Invalid ticker symbol"⟩) ∧
    (create_holding providerC6 ⟨"AAA", 10, 5⟩ 1 0 ⟨[], [], []⟩).1.holdings =
      [⟨1, "AAA", 10, 5, 0⟩] ∧
    (create_holding providerC6 ⟨"AAA", 10, 5⟩ 1 0 ⟨[], [], []⟩).2 =
      .ok ⟨1, "AAA", 10, 5, 8, 80, 50, 0⟩ := by
  refine ⟨(create_holding_validates_ticker providerC6 ⟨"ZZZ", 10, 5⟩ 1 0
    ⟨[], [], []⟩).1 (by simp [get_current_price, providerC6]), ?_⟩
  have h := (create_holding_validates_ticker providerC6 ⟨"AAA", 10, 5⟩ 1 0
    ⟨[], [], []⟩).2 (by simp [get_current_price, providerC6, List.getLast?])
  refine ⟨h.1, ?_⟩
  rw [h.2]
  norm_num [get_current_price, providerC6, List.getLast?,
    HoldingResponse.mk.injEq]

theorem eraseP_id_not_mem (hid : Nat) :
    ∀ (l : List Holding), (l.map Holding.id).Nodup →
      ∀ x ∈ l.eraseP (fun h => h.id == hid), x.id ≠ hid
  | [], _, x, hx => by simp at hx
  | h :: t, hnd, x, hx => by
      rw [List.map_cons, List.nodup_cons] at hnd
      rcases hnd with ⟨hnotin, hnd'⟩
      by_cases hph : h.id = hid
      · rw [List.eraseP_cons_of_pos (by simpa using hph)] at hx
        intro hxid
        exact hnotin (hph ▸ hxid ▸ List.mem_map_of_mem Holding.id hx)
      · rw [List.eraseP_cons_of_neg (by simpa using hph)] at hx
        rcases List.mem_cons.mp hx with rfl | hx'
        · exact hph
        · exact eraseP_id_not_mem hid t hnd' x hx'

/-- C7. Deleting a holding id returns the 404 not-found error with the
database unchanged exactly when no stored holding has that id; when one
does, the route reports success and — the stored ids being unique, as the
primary key guarantees — the holding no longer appears in a subsequent
holdings listing. -/
theorem delete_holding_semantics (provider : Provider) (hid : Nat) (db : DB) :
    (delete_holding hid db = (db, .error ⟨404, "Holding not found"⟩) ↔
      ∀ h ∈ db.holdings, h.id ≠ hid) ∧
    ((∃ h ∈ db.holdings, h.id = hid) →
      (delete_holding hid db).2 = .ok "Holding deleted" ∧
      ((db.holdings.map Holding.id).Nodup →
        ∀ r ∈ get_holdings provider (delete_holding hid db).1, r.id ≠ hid)) := by
  constructor
  · constructor
    · intro heq h hmem hidh
      have hfind : db.holdings.find? (fun h => h.id == hid) ≠ none := by
        intro hnone
        have := List.find?_eq_none.mp hnone h hmem
        simp [hidh] at this
      rcases Option.ne_none_iff_exists.mp hfind with ⟨hh, hsome⟩
      rw [delete_holding, ← hsome] at heq
      simp at heq
    · intro hnone
      have hfind : db.holdings.find? (fun h => h.id == hid) = none :=
        List.find?_eq_none.mpr (fun h hmem => by simp [hnone h hmem])
      simp [delete_holding, hfind]
  · rintro ⟨h, hmem, hidh⟩
    have hfind : db.holdings.find? (fun h => h.id == hid) ≠ none := by
      intro hnone
      have := List.find?_eq_none.mp hnone h hmem
      simp [hidh] at this
    rcases Option.ne_none_iff_exists.mp hfind with ⟨hh, hsome⟩
    constructor
    · rw [delete_holding, ← hsome]
    · intro hnd r hr
      rw [delete_holding, ← hsome] at hr
      simp only [get_holdings, List.mem_map] at hr
      rcases hr with ⟨x, hx, rfl⟩
      exact eraseP_id_not_mem hid db.holdings hnd x hx

/-- C7, witness: in a database holding only id 1, deleting id 2 is a 404
that changes nothing, and deleting id 1 succeeds and removes it from the
listing. -/
theorem delete_holding_semantics_witness :
    delete_holding 2 ⟨[⟨1, "AAA", 10, 5, 0⟩], [], []⟩ =
      (⟨[⟨1, "AAA", 10, 5, 0⟩], [], []⟩, .error ⟨404, "Holding not found"⟩) ∧
    (delete_holding 1 ⟨[⟨1, "AAA", 10, 5, 0⟩], [], []⟩).2 =
      .ok "Holding deleted" ∧
    ∀ r ∈ get_holdings providerC6
      (delete_holding 1 ⟨[⟨1, "AAA", 10, 5, 0⟩], [], []⟩).1, r.id ≠ 1 := by
  refine ⟨(delete_holding_semantics providerC6 2
      ⟨[⟨1, "AAA", 10, 5, 0⟩], [], []⟩).1.mpr (by simp), ?_, ?_⟩
  · exact ((delete_holding_semantics providerC6 1
      ⟨[⟨1, "AAA", 10, 5, 0⟩], [], []⟩).2 ⟨⟨1, "AAA", 10, 5, 0⟩, by simp, rfl⟩).1
  · exact ((delete_holding_semantics providerC6 1
      ⟨[⟨1, "AAA", 10, 5, 0⟩], [], []⟩).2 ⟨⟨1, "AAA", 10, 5, 0⟩, by simp, rfl⟩).2
      (by simp)

/-! ### Portfolio history query -/

/-- The cutoff `datetime.utcnow() - timedelta(days=30)` (main.py line 248),
with instants in seconds. -/
def thirtyDaysAgo (now : DateTime) : DateTime := now - 30 * 86400

/-- Embeds `get_portfolio_history` (main.py lines 245-259) up to the
rendering of each row: the rows with `date >= thirty_days_ago`, ordered by
`date` ascending. -/
def get_portfolio_history (now : DateTime) (db : DB) : List PortfolioHistory :=
  (db.history.filter (fun e => decide (thirtyDaysAgo now ≤ e.date))).mergeSort
    (fun a b => decide (a.date ≤ b.date))

/-- C8. The history query returns exactly the `PortfolioHistory` rows whose
date is within the last 30 days — every returned row is at or after the
cutoff, every stored row at or after the cutoff is returned, and the result
is a permutation of that filtered set — ordered ascending by date. -/
theorem portfolio_history_window (now : DateTime) (db : DB) :
    (∀ e ∈ get_portfolio_history now db, thirtyDaysAgo now ≤ e.date) ∧
    (∀ e ∈ db.history, thirtyDaysAgo now ≤ e.date →
      e ∈ get_portfolio_history now db) ∧
    (get_portfolio_history now db).Perm
      (db.history.filter (fun e => decide (thirtyDaysAgo now ≤ e.date))) ∧
    (get_portfolio_history now db).Pairwise (fun a b => a.date ≤ b.date) := by
  refine ⟨?_, ?_, List.mergeSort_perm _ _, ?_⟩
  · intro e he
    have := List.mem_mergeSort.mp he
    simpa using (List.mem_filter.mp this).2
  · intro e he hle
    exact List.mem_mergeSort.mpr (List.mem_filter.mpr ⟨he, by simpa using hle⟩)
  · have h := @List.sorted_mergeSort PortfolioHistory
      (fun a b => decide (a.date ≤ b.date))
      (fun a b c hab hbc => by
        simp only [decide_eq_true_eq] at hab hbc ⊢
        exact le_trans hab hbc)
      (fun a b => by
        simp only [Bool.or_eq_true, decide_eq_true_eq]
        exact Int.le_total a.date b.date)
      (db.history.filter (fun e => decide (thirtyDaysAgo now ≤ e.date)))
    exact h.imp (fun hab => by simpa using hab)

/-- C8, witness: in a store holding rows dated at day 0, day 21 and day 29,
queried at day 31, the in-window row dated day 21 is returned. -/
theorem portfolio_history_window_witness :
    (⟨21 * 86400, 9, 2, 7⟩ : PortfolioHistory) ∈
      get_portfolio_history (31 * 86400)
        ⟨[], [], [⟨29 * 86400, 3, 2, 9⟩, ⟨21 * 86400, 9, 2, 7⟩, ⟨0, 1, 1, 5⟩]⟩ :=
  (portfolio_history_window (31 * 86400)
      ⟨[], [], [⟨29 * 86400, 3, 2, 9⟩, ⟨21 * 86400, 9, 2, 7⟩, ⟨0, 1, 1, 5⟩]⟩).2.1
      ⟨21 * 86400, 9, 2, 7⟩ (by decide) (by decide)

/-! ### Snapshot rows across the operations -/

/-- Data for the C9 counterexample: one holding with id 1 owning one
snapshot row. -/
def dbC9 : DB := ⟨[⟨1, "AAA", 10, 5, 0⟩], [⟨some 1, 5, 0⟩], []⟩

/-- C9, counterexample. Deleting holding 1 from `dbC9` does not remove its
snapshot row: the row survives with its `holding_id` cleared to NULL,
because the `snapshots` relationship declares no delete cascade — contrary
to the claim that deleting a holding cascades to (removes) that holding's
snapshot rows. -/
theorem delete_holding_no_cascade_counterexample :
    (delete_holding 1 dbC9).1.snapshots = [⟨none, 5, 0⟩] ∧
    (delete_holding 1 dbC9).1.snapshots.length = dbC9.snapshots.length := by
  constructor <;> rfl

/-- C9, amended. `PriceSnapshot` rows are created only by the snapshot job,
which only appends to the table; `create_holding` leaves snapshots and
history untouched; and `delete_holding` removes no snapshot row — it keeps
the table's length, preserves every row's price and date, leaves rows of
other holdings identical, clears the deleted holding's rows' `holding_id`
to NULL, and leaves all `PortfolioHistory` rows unchanged. -/
theorem snapshot_rows_frame (provider : Provider) (req : HoldingCreate)
    (newId : Nat) (now : DateTime) (hid : Nat) (db : DB) :
    (∃ tail, (update_price_snapshots provider now db).snapshots =
      db.snapshots ++ tail) ∧
    (create_holding provider req newId now db).1.snapshots = db.snapshots ∧
    (create_holding provider req newId now db).1.history = db.history ∧
    (delete_holding hid db).1.history = db.history ∧
    (delete_holding hid db).1.snapshots.length = db.snapshots.length ∧
    (∀ s ∈ db.snapshots, s.holding_id ≠ some hid →
      s ∈ (delete_holding hid db).1.snapshots) ∧
    (∀ s ∈ (delete_holding hid db).1.snapshots,
      ∃ s0 ∈ db.snapshots, s.price = s0.price ∧ s.date = s0.date) := by
  refine ⟨⟨_, rfl⟩, ?_, ?_, ?_, ?_, ?_, ?_⟩
  · by_cases h : get_current_price provider req.ticker = 0 <;>
      simp [create_holding, h]
  · by_cases h : get_current_price provider req.ticker = 0 <;>
      simp [create_holding, h]
  · cases hf : db.holdings.find? (fun h => h.id == hid) <;>
      simp [delete_holding, hf]
  · cases hf : db.holdings.find? (fun h => h.id == hid) <;>
      simp [delete_holding, hf]
  · intro s hs hne
    cases hf : db.holdings.find? (fun h => h.id == hid) with
    | none => simpa [delete_holding, hf] using hs
    | some h =>
        simp only [delete_holding, hf, List.mem_map]
        exact ⟨s, hs, by simp [hne]⟩
  · intro s hs
    cases hf : db.holdings.find? (fun h => h.id == hid) with
    | none =>
        refine ⟨s, ?_, rfl, rfl⟩
        simpa [delete_holding, hf] using hs
    | some h =>
        simp only [delete_holding, hf, List.mem_map] at hs
        rcases hs with ⟨s0, hs0, rfl⟩
        by_cases hcase : s0.holding_id == some hid <;>
          simp [hcase] <;> exact ⟨s0, hs0, rfl, rfl⟩

/-- C9 amended, witness: in a database with holding 1 and a snapshot row
belonging to holding 2, deleting holding 1 keeps the other holding's
snapshot row, keeps the table length, and every surviving row keeps some
stored row's price and date. -/
theorem snapshot_rows_frame_witness :
    (⟨some 2, 7, 0⟩ : PriceSnapshot) ∈
      (delete_holding 1 ⟨[⟨1, "AAA", 10, 5, 0⟩], [⟨some 2, 7, 0⟩], []⟩).1.snapshots ∧
    (create_holding providerC6 ⟨"AAA", 1, 1⟩ 5 0
      ⟨[⟨1, "AAA", 10, 5, 0⟩], [⟨some 2, 7, 0⟩], []⟩).1.snapshots =
      [⟨some 2, 7, 0⟩] ∧
    (delete_holding 1
      ⟨[⟨1, "AAA", 10, 5, 0⟩], [⟨some 2, 7, 0⟩], []⟩).1.snapshots.length = 1 := by
  obtain ⟨-, hcr, -, -, hlen, hkeep, -⟩ := snapshot_rows_frame providerC6
    ⟨"AAA", 1, 1⟩ 5 0 1 ⟨[⟨1, "AAA", 10, 5, 0⟩], [⟨some 2, 7, 0⟩], []⟩
  exact ⟨hkeep ⟨some 2, 7, 0⟩ (by decide) (by decide), hcr, hlen⟩

/-! ### Failed lookups inside the snapshot job -/

/-- C10. When a holding's price lookup returns the failure sentinel `0`, the
snapshot job neither skips it nor surfaces the failure: it persists a
`PriceSnapshot` with price `0` for that holding, the holding's term in the
run's `total_value` sum is `0`, yet its full `purchase_price * shares` term
still enters `total_invested`, and the recorded `profit_loss` is their
difference — so the failed lookup depresses the recorded value and
profit/loss for that run. -/
theorem snapshot_job_zero_price (provider : Provider) (now : DateTime)
    (db : DB) (h : Holding) (hmem : h ∈ db.holdings)
    (hzero : get_current_price provider h.ticker = 0) :
    (⟨some h.id, 0, now⟩ : PriceSnapshot) ∈
      (update_price_snapshots provider now db).snapshots ∧
    get_current_price provider h.ticker * h.shares = 0 ∧
    (update_price_snapshots provider now db).history =
      db.history ++
        [⟨now,
          (db.holdings.map (fun h => get_current_price provider h.ticker * h.shares)).sum,
          (db.holdings.map (fun h => h.purchase_price * h.shares)).sum,
          (db.holdings.map (fun h => get_current_price provider h.ticker * h.shares)).sum -
            (db.holdings.map (fun h => h.purchase_price * h.shares)).sum⟩] ∧
    h.purchase_price * h.shares ∈
      db.holdings.map (fun h => h.purchase_price * h.shares) := by
  refine ⟨?_, by rw [hzero]; ring, update_history_eq provider now db,
    List.mem_map_of_mem _ hmem⟩
  rw [update_snapshots_eq provider now db]
  refine List.mem_append_right _ ?_
  have : mkSnapshot provider now h = ⟨some h.id, 0, now⟩ := by
    simp [mkSnapshot, hzero]
  exact this ▸ List.mem_map_of_mem _ hmem

/-- C10, witness: a portfolio with a failing ticker "BBB" (5 shares bought
at 4) and a quoted ticker "AAA"; the run records a zero-price snapshot for
"BBB" while its cost 20 still enters the invested sum. -/
theorem snapshot_job_zero_price_witness :
    (⟨some 2, 0, 0⟩ : PriceSnapshot) ∈
      (update_price_snapshots providerC6 0
        ⟨[⟨1, "AAA", 10, 5, 0⟩, ⟨2, "BBB", 5, 4, 0⟩], [], []⟩).snapshots ∧
    get_current_price providerC6 "BBB" * (5 : ℚ) = 0 ∧
    (4 : ℚ) * 5 ∈
      ([⟨1, "AAA", 10, 5, 0⟩, ⟨2, "BBB", 5, 4, 0⟩] : List Holding).map
        (fun h => h.purchase_price * h.shares) := by
  obtain ⟨h1, h2, -, h4⟩ := snapshot_job_zero_price providerC6 0
    ⟨[⟨1, "AAA", 10, 5, 0⟩, ⟨2, "BBB", 5, 4, 0⟩], [], []⟩
    ⟨2, "BBB", 5, 4, 0⟩ (by simp) (by simp [get_current_price, providerC6])
  exact ⟨h1, h2, h4⟩

end ClearTrack
